import Mathlib

/-!
# revtest: bulk reverse-DNS resolver (`main.go`)

A shallow embedding of `main.go` and the properties of it that the
specification states.

Conventions of the embedding.

* Go strings are Lean `String`s; the byte-level view of Go never matters here
  since every cut set and separator used by the program is ASCII.
* `int` is `Int` with the 64-bit range checked where the program parses one,
  `uint16` is a `Nat` below `2^16`.
* The process has two output streams.  `fmt.Println` appends one write to
  standard output; nothing in `main.go` writes to standard error.
* The file system and the network are oracles handed to the worker: what
  `os.Open` and the `bufio.Scanner` give for a path, whether `DialContext`
  connects, what `net.LookupAddr` answers.  A successful `net.LookupAddr`
  returns only names that pass `net.isDomainName`.
* Standard input is its text; the `bufio.Scanner` over it is modelled with
  the default line splitting and the default buffer limit.
* The work channel is unbuffered: a send completes only when a worker
  receives it.  Which worker receives which item is a parameter of a run.
* A run-time panic (index out of range) is an error value.
-/

namespace Revtest

/-! ## Library functions used by the program -/

/-- Decimal digit test used by `strconv`. -/
def isDigit (c : Char) : Bool := decide (48 ≤ c.toNat ∧ c.toNat ≤ 57)

/-- Value of a string of decimal digits, most significant first. -/
def digitsValue (ds : List Char) : Nat :=
  ds.foldl (fun acc c => 10 * acc + (c.toNat - 48)) 0

/-- The unsigned decimal parser shared by `strconv.Atoi` and
`strconv.ParseUint` in base 10: at least one character, digits only. -/
def parseDigits (ds : List Char) : Option Nat :=
  if ds.isEmpty then none
  else if ds.all isDigit then some (digitsValue ds)
  else none

/-- Go `strconv.Atoi` on a 64-bit platform: an optional sign, then decimal
digits, the value within the range of `int`; `none` is a non-nil `err`. -/
def Atoi (s : String) : Option Int :=
  match s.data with
  | [] => none
  | '-' :: ds =>
    match parseDigits ds with
    | some n => if n ≤ 2 ^ 63 then some (-(n : Int)) else none
    | none => none
  | '+' :: ds =>
    match parseDigits ds with
    | some n => if n < 2 ^ 63 then some (n : Int) else none
    | none => none
  | ds =>
    match parseDigits ds with
    | some n => if n < 2 ^ 63 then some (n : Int) else none
    | none => none

/-- Go `strconv.ParseUint(s, 10, 16)`: decimal digits only, no sign, the
value below `2^16`; `none` is a non-nil `err`. -/
def ParseUint16 (s : String) : Option Nat :=
  match parseDigits s.data with
  | some n => if n < 2 ^ 16 then some n else none
  | none => none

/-- Go `unicode.IsSpace`: the code points with the White_Space property. -/
def isSpace (c : Char) : Bool :=
  let n := c.toNat
  decide ((9 ≤ n ∧ n ≤ 13) ∨ n = 32 ∨ n = 133 ∨ n = 160 ∨ n = 5760 ∨
    (8192 ≤ n ∧ n ≤ 8202) ∨ n = 8232 ∨ n = 8233 ∨ n = 8239 ∨ n = 8287 ∨
    n = 12288)

/-- Go `strings.TrimSpace`: leading and trailing white space removed. -/
def TrimSpace (s : String) : String :=
  String.mk (((s.data.dropWhile isSpace).reverse.dropWhile isSpace).reverse)

/-- Go `strings.TrimRight(s, cutset)`: every trailing character that occurs
in `cutset` is removed. -/
def TrimRight (s cutset : String) : String :=
  String.mk ((s.data.reverse.dropWhile (fun c => cutset.data.contains c)).reverse)

/-- Letters and the underscore, the first case of the scan in Go
`net.isDomainName`. -/
def isLetterOrUnderscore (c : Char) : Bool :=
  decide ((97 ≤ c.toNat ∧ c.toNat ≤ 122) ∨ (65 ≤ c.toNat ∧ c.toNat ≤ 90) ∨ c.toNat = 95)

/-- The scan loop of Go `net.isDomainName` over the bytes still to be read,
with its three variables `last`, `nonNumeric` and `partlen`, and the test
made after the loop. -/
def domainLoop : List Char → Char → Bool → Nat → Bool
  | [], last, nonNumeric, partlen =>
    if last = '-' ∨ partlen > 63 then false else nonNumeric
  | c :: s, last, nonNumeric, partlen =>
    if isLetterOrUnderscore c then domainLoop s c true (partlen + 1)
    else if isDigit c then domainLoop s c nonNumeric (partlen + 1)
    else if c = '-' then
      if last = '.' then false else domainLoop s c true (partlen + 1)
    else if c = '.' then
      if last = '.' ∨ last = '-' then false
      else if partlen > 63 ∨ partlen = 0 then false
      else domainLoop s c nonNumeric 0
    else false

/-- Go `net.isDomainName`, the test `net.LookupAddr` applies to every name
of an answer: when a name fails it, `LookupAddr` returns a non-nil error.
The names of a successful lookup therefore all pass it. -/
def isDomainName (s : String) : Bool :=
  if s = "." then true
  else if s.utf8ByteSize = 0 ∨ 254 < s.utf8ByteSize ∨
      (s.utf8ByteSize = 254 ∧ s.data.getLast? ≠ some '.') then false
  else domainLoop s.data '.' false 0

/-- Operands of `fmt.Println` joined the way `Println` joins them: a space
between every two operands. -/
def joinOperands : List String → String
  | [] => ""
  | [a] => a
  | a :: b :: rest => a ++ " " ++ joinOperands (b :: rest)

/-- Go `fmt.Sprintln` on string operands: the operands separated by spaces,
then a newline. -/
def Sprintln (operands : List String) : String :=
  joinOperands operands ++ "\n"

/-- The two output streams of the process, each the list of writes made to
it so far, oldest first. -/
structure Streams where
  stdout : List String
  stderr : List String
deriving DecidableEq, Repr

/-- Go `fmt.Println`: one write of the formatted operands to standard
output. -/
def Println (out : Streams) (operands : List String) : Streams :=
  { out with stdout := out.stdout ++ [Sprintln operands] }

/-- Go `fmt.Sprintf("%s:%d", host, port)` for a string and a `uint16`. -/
def sprintfHostPort (host : String) (port : Nat) : String :=
  host ++ ":" ++ toString port

/-! ## The option record and argument parsing -/

/-- The global `opts` of `main.go`; the defaults are Go's zero values. -/
structure Opts where
  Threads : Int := 0
  ResolverIP : String := ""
  Protocol : String := ""
  Port : Nat := 0
  Domain : Bool := false
  ResolversFile : String := ""
deriving DecidableEq, Repr

/-- Ways the model of `parseArgs` can stop without a result. -/
inductive ParseError where
  | indexOutOfRange
  | outOfFuel
deriving DecidableEq, Repr

/-- Source `parseIntArg(args, index)`. -/
def parseIntArg (args : List String) (index : Nat) : Int :=
  if index + 1 < args.length then
    match args[index + 1]? with
    | some val =>
      match Atoi val with
      | some num => num
      | none => 0
    | none => 0
  else 0

/-- Source `parseUint16Arg(args, index)`. -/
def parseUint16Arg (args : List String) (index : Nat) : Nat :=
  if index + 1 < args.length then
    match args[index + 1]? with
    | some val =>
      match ParseUint16 val with
      | some num => num
      | none => 0
    | none => 0
  else 0

/-- The `for i := 0; i < len(args); i++` loop of `parseArgs`, from index `i`
with the options parsed so far.  Every iteration uses one unit of fuel. -/
def parseArgsLoop (args : List String) : Nat → Nat → Opts → Except ParseError Opts
  | 0, _, _ => .error .outOfFuel
  | fuel + 1, i, o =>
    match args[i]? with
    | none => .ok o
    | some a =>
      if a = "-t" then
        parseArgsLoop args fuel (i + 2) { o with Threads := parseIntArg args i }
      else if a = "-r" then
        match args[i + 1]? with
        | none => .error .indexOutOfRange
        | some v => parseArgsLoop args fuel (i + 2) { o with ResolverIP := v }
      else if a = "-P" then
        match args[i + 1]? with
        | none => .error .indexOutOfRange
        | some v => parseArgsLoop args fuel (i + 2) { o with Protocol := v }
      else if a = "-p" then
        parseArgsLoop args fuel (i + 2) { o with Port := parseUint16Arg args i }
      else if a = "-d" then
        parseArgsLoop args fuel (i + 1) { o with Domain := true }
      else if a = "-f" then
        match args[i + 1]? with
        | none => .error .indexOutOfRange
        | some v => parseArgsLoop args fuel (i + 2) { o with ResolversFile := v }
      else
        parseArgsLoop args fuel (i + 1) o

/-- Source `parseArgs`, on `os.Args[1:]`, starting from the zero-valued
`opts`. -/
def parseArgs (args : List String) : Except ParseError Opts :=
  parseArgsLoop args (args.length + 1) 0 {}

/-- Number of `doWork` goroutines the loop `for i := 0; i < numWorkers; i++`
of `main` starts, with `numWorkers := opts.Threads`. -/
def numWorkers (o : Opts) : Nat := o.Threads.toNat

/-! ## The environment of a worker -/

/-- What a `bufio.Scanner` over an opened file gives: the tokens of the
successive `Scan` calls, then the value of `Err` (its message) once `Scan`
has returned false. -/
structure ScannedFile where
  lines : List String
  err : Option String
deriving DecidableEq, Repr

/-- The file system as seen through `os.Open`: the scanned file, or the
message of the error. -/
structure FileSystem where
  Open : String → Except String ScannedFile

/-- The network as seen by `lookupAddrWithContext`: whether
`DialContext(ctx, network, address)` connects, and what `net.LookupAddr(ip)`
answers. -/
structure Network where
  DialContext : String → String → Except String Unit
  LookupAddr : String → Except String (List String)

/-! ## The worker -/

/-- The scan loop of `doWork` (lines 111-116): every line is trimmed and
appended to `resolvers` unless it is empty after trimming. -/
def scanResolvers (lines : List String) (resolvers : List String) : List String :=
  lines.foldl
    (fun resolvers line =>
      let resolver := TrimSpace line
      if resolver ≠ "" then resolvers ++ [resolver] else resolvers)
    resolvers

/-- Lines 96-121 of `doWork`: the resolver list of the worker.  The second
component is `none` when the worker returns early, after the diagnostic
has been printed. -/
def buildResolvers (cfg : Opts) (fs : FileSystem) (out : Streams) :
    Streams × Option (List String) :=
  let resolvers : List String := []
  let resolvers :=
    if cfg.ResolverIP ≠ "" then resolvers ++ [sprintfHostPort cfg.ResolverIP cfg.Port]
    else resolvers
  if cfg.ResolversFile ≠ "" then
    match fs.Open cfg.ResolversFile with
    | .error err => (Println out ["Failed to open resolvers file:", err], none)
    | .ok file =>
      let resolvers := scanResolvers file.lines resolvers
      match file.err with
      | some err => (Println out ["Failed to read resolvers file:", err], none)
      | none => (out, some resolvers)
  else (out, some resolvers)

/-- Source `lookupAddrWithContext`: dial the resolver, and when the dial
succeeds return what `net.LookupAddr(ip)` returns. -/
def lookupAddrWithContext (cfg : Opts) (net : Network) (ip resolver : String) :
    Except String (List String) :=
  match net.DialContext cfg.Protocol resolver with
  | .error err => .error err
  | .ok _ => net.LookupAddr ip

/-- Body of `for _, a := range addr` (lines 131-135). -/
def emitLine (cfg : Opts) (ip : String) (out : Streams) (a : String) : Streams :=
  if cfg.Domain then Println out [TrimRight a "."]
  else Println out [ip, "\t", a]

/-- Body of `for ip := range work` (lines 124-137): the loop over the
resolvers for one work item. -/
def resolveItem (cfg : Opts) (net : Network) (resolvers : List String)
    (out : Streams) (ip : String) : Streams :=
  resolvers.foldl
    (fun out resolver =>
      match lookupAddrWithContext cfg net ip resolver with
      | .error _ => out
      | .ok addr => addr.foldl (emitLine cfg ip) out)
    out

/-- Source `doWork`, for a worker that receives the items `work` from the
channel before the channel is closed. -/
def doWork (cfg : Opts) (fs : FileSystem) (net : Network) (work : List String)
    (out : Streams) : Streams :=
  match buildResolvers cfg fs out with
  | (out, none) => out
  | (out, some resolvers) => work.foldl (resolveItem cfg net resolvers) out

/-! ## The scanner on standard input -/

/-- Go `bufio.MaxScanTokenSize`, the size the buffer of a `bufio.Scanner`
may grow to. -/
def MaxScanTokenSize : Nat := 64 * 1024

/-- Length in bytes of a piece of text, `len` in Go. -/
def byteLen (data : List Char) : Nat := (data.map Char.utf8Size).sum

/-- Go `bufio` `dropCR`: one trailing carriage return is dropped. -/
def dropCR (data : List Char) : List Char :=
  if data.getLast? = some '\r' then data.dropLast else data

/-- Go `bufio.Scanner` with its default split function `bufio.ScanLines` and
its default buffer limit, on the text still to be read and the bytes `held`
of the line being read (the most recent first): the tokens of the successive
`Scan` calls, and `Err` once `Scan` has returned false.  A line ends at a
newline or at the end of the text, one carriage return before the newline is
dropped, text after the last newline is a line when it is not empty, and
`Scan` stops with `ErrTooLong` at the first line that, without its newline,
has `MaxScanTokenSize` bytes or more. -/
def scanLoop : List Char → List Char → ScannedFile
  | [], held =>
    if held.isEmpty then { lines := [], err := none }
    else if byteLen held.reverse < MaxScanTokenSize then
      { lines := [String.mk (dropCR held.reverse)], err := none }
    else { lines := [], err := some "bufio.Scanner: token too long" }
  | c :: input, held =>
    if c = '\n' then
      if byteLen held.reverse < MaxScanTokenSize then
        { lines := String.mk (dropCR held.reverse) :: (scanLoop input []).lines,
          err := (scanLoop input []).err }
      else { lines := [], err := some "bufio.Scanner: token too long" }
    else scanLoop input (c :: held)

/-- The scanner `bufio.NewScanner(os.Stdin)` of `main` on the text of
standard input: what `s.Text()` is after each successful `s.Scan()`. -/
def scanStdin (stdin : String) : ScannedFile := scanLoop stdin.data []

/-! ## The producer and the pool -/

/-- The work channel as the producer leaves it: the values whose send has
completed, in the order of the sends, and whether it has been closed. -/
structure Chan where
  sent : List String
  closed : Bool
deriving DecidableEq, Repr

/-- The loop `for s.Scan()` with body `work <- s.Text()`, on the tokens
still to come.  The channel of line 29 is unbuffered, so a send completes only when a
worker receives the value: with no receiving worker the first send blocks for
good and the loop is never left (second component false). -/
def sendAll (receivers : Nat) : List String → Chan → Chan × Bool
  | [], work => (work, true)
  | text :: rest, work =>
    if receivers = 0 then (work, false)
    else sendAll receivers rest { work with sent := work.sent ++ [text] }

/-- The producer goroutine of `main` (lines 30-36) on the text of standard
input, with `receivers` workers ranging over the channel: one send per
scanned line, then `close` when the loop is left. -/
def producer (stdin : String) (receivers : Nat) : Chan :=
  let s := scanStdin stdin
  let work : Chan := { sent := [], closed := false }
  match sendAll receivers s.lines work with
  | (work, true) => { work with closed := true }
  | (work, false) => work

/-- Items that worker `j` receives when item number `k` of `items` goes to
worker `dist[k]`; a channel hands every value to exactly one receiver. -/
def received (j : Nat) (items : List String) (dist : List Nat) : List String :=
  ((items.zip dist).filter (fun p => p.2 == j)).map Prod.fst

/-- Number of workers that reach `for ip := range work`: all the workers
`main` starts when the resolver list is built, none when `doWork` returns
early. -/
def liveReceivers (cfg : Opts) (fs : FileSystem) : Nat :=
  match buildResolvers cfg fs { stdout := [], stderr := [] } with
  | (_, some _) => numWorkers cfg
  | (_, none) => 0

/-- Lines 38-44 of `main`: the `numWorkers` workers, for the items that
pass through the channel.  The result has the streams written by each
worker. -/
def runWorkers (cfg : Opts) (fs : FileSystem) (net : Network) (items : List String)
    (dist : List Nat) : List Streams :=
  (List.range (numWorkers cfg)).map
    (fun j => doWork cfg fs net (received j items dist) { stdout := [], stderr := [] })

/-- Lines 27-44 of `main`: the producer fills the channel from standard
input, the workers drain it. -/
def runPool (cfg : Opts) (fs : FileSystem) (net : Network) (stdin : String)
    (dist : List Nat) : List Streams :=
  let work := producer stdin (liveReceivers cfg fs)
  runWorkers cfg fs net work.sent dist

/-- Source `main`: `parseArgs`, then the pool. -/
def main (args : List String) (fs : FileSystem) (net : Network) (stdin : String)
    (dist : List Nat) : Except ParseError (List Streams) :=
  match parseArgs args with
  | .error e => .error e
  | .ok cfg => .ok (runPool cfg fs net stdin dist)

/-- Every write made to standard output by some worker of a run. -/
def stdoutLines (outs : List Streams) : List String :=
  outs.flatMap (fun o => o.stdout)

/-- Every write made to standard error by some worker of a run. -/
def stderrLines (outs : List Streams) : List String :=
  outs.flatMap (fun o => o.stderr)

/-- The write `doWork` makes for hostname `a` of work item `ip`. -/
def resultLine (cfg : Opts) (ip a : String) : String :=
  if cfg.Domain then Sprintln [TrimRight a "."] else Sprintln [ip, "\t", a]

/-- A distribution of `k` items over `n` workers. -/
def validDist (n k : Nat) (dist : List Nat) : Prop :=
  dist.length = k ∧ ∀ j ∈ dist, j < n

/-! ## Definitions used to state the properties -/

/-- The hostname as the specification words the domain-only format: one
trailing dot removed when there is one, the hostname itself otherwise. -/
def stripOneTrailingDot (h : String) : String :=
  if h.data.getLast? = some '.' then String.mk h.data.dropLast else h

/-- The resolver list as the specification words it, for a resolvers file
with lines `L` (no line when no file is configured): the single endpoint
first when one is configured, then the trimmed lines that are not blank, in
file order. -/
def resolverSetSpec (cfg : Opts) (L : List String) : List String :=
  (if cfg.ResolverIP = "" then [] else [cfg.ResolverIP ++ ":" ++ toString cfg.Port])
    ++ (L.map TrimSpace).filter (fun r => decide (r ≠ ""))

/-- Lines that one endpoint contributes for work item `ip`, as the
specification words it: the formatted hostnames when the connection and
the lookup both succeed, no line otherwise. -/
def endpointLines (cfg : Opts) (net : Network) (ip resolver : String) : List String :=
  match net.DialContext cfg.Protocol resolver, net.LookupAddr ip with
  | .ok _, .ok hosts => hosts.map (resultLine cfg ip)
  | _, _ => []

/-- Lines a run writes to standard output for the items `items`, whatever
the positive number of workers: the diagnostic when the resolver list cannot
be built, the result lines of every work item otherwise. -/
def poolLines (cfg : Opts) (fs : FileSystem) (net : Network) (items : List String) :
    List String :=
  match buildResolvers cfg fs { stdout := [], stderr := [] } with
  | (out, none) => out.stdout
  | (out, some R) =>
    out.stdout ++ items.flatMap (fun ip => R.flatMap (endpointLines cfg net ip))

/-- The pieces of a text cut at its newlines, without the last piece when
that piece is empty. -/
def dropFinalEmpty (parts : List (List Char)) : List (List Char) :=
  if parts.getLast? = some [] then parts.dropLast else parts

/-- The lines of the input as the specification words them: the raw text
between newlines, the text after the last newline counting as a line when it
is not empty. -/
def rawLines (stdin : String) : List (List Char) :=
  dropFinalEmpty (stdin.data.splitOn '\n')

/-- Whether a raw line fits the buffer of the scanner. -/
def fitsBuffer (line : List Char) : Bool := decide (byteLen line < MaxScanTokenSize)

/-- The strings `parseArgs` treats as flags that take a value. -/
def takesValue (a : String) : Bool :=
  a = "-t" || a = "-r" || a = "-P" || a = "-p" || a = "-f"

/-- Whether the last string of the list is a flag that takes a value, so
that a string appended to the list would be read as that value. -/
def endsInValueFlag (pre : List String) : Bool :=
  match pre.getLast? with
  | some a => takesValue a
  | none => false

/-! ## Concrete environments -/

/-- A network on which every dial connects and every lookup answers the
given hostnames. -/
def netAnswering (hosts : List String) : Network :=
  { DialContext := fun _ _ => .ok (), LookupAddr := fun _ => .ok hosts }

/-- A file system in which no file can be opened. -/
def fsMissing : FileSystem :=
  { Open := fun path => .error ("open " ++ path ++ ": no such file or directory") }

/-- A file system whose every file scans to the same three lines. -/
def fsThreeLines : FileSystem :=
  { Open := fun _ => .ok { lines := ["  9.9.9.9:53 ", "", "1.1.1.1:53\t"], err := none } }

/-- An input of two lines, the first of 65536 bytes. -/
def longLineInput : String :=
  String.mk (List.replicate 65536 'a' ++ '\n' :: "192.0.2.5\n".data)

/-- A file system whose every file yields one line and then a read error. -/
def fsReadError : FileSystem :=
  { Open := fun _ => .ok { lines := ["9.9.9.9:53"], err := some "read r.txt: input/output error" } }

/-! ## Output format of a result -/

theorem rdrop_dots (l : List Char) :
    (∃ k, l = (l.reverse.dropWhile (fun c => ['.'].contains c)).reverse
        ++ List.replicate k '.') ∧
    (l.reverse.dropWhile (fun c => ['.'].contains c)).reverse.getLast? ≠ some '.' := by
  constructor
  · refine ⟨(l.reverse.takeWhile (fun c => ['.'].contains c)).length, ?_⟩
    have h := List.takeWhile_append_dropWhile (fun c => ['.'].contains c) l.reverse
    have h2 : l.reverse.takeWhile (fun c => ['.'].contains c)
        = List.replicate (l.reverse.takeWhile (fun c => ['.'].contains c)).length '.' := by
      rw [List.eq_replicate_iff]
      refine ⟨rfl, fun b hb => ?_⟩
      have := List.mem_takeWhile_imp hb
      simpa using this
    have h3 : l = (l.reverse.dropWhile (fun c => ['.'].contains c)).reverse
        ++ (l.reverse.takeWhile (fun c => ['.'].contains c)).reverse := by
      rw [← List.reverse_append, h, List.reverse_reverse]
    rw [h2, List.reverse_replicate] at h3
    simpa using h3
  · rw [List.getLast?_reverse]
    intro hc
    have hne : l.reverse.dropWhile (fun c => ['.'].contains c) ≠ [] := by
      intro h0
      rw [h0] at hc
      simp at hc
    have := List.head_dropWhile_not (fun c => ['.'].contains c) l.reverse hne
    rw [List.head?_eq_head hne] at hc
    simp only [Option.some.injEq] at hc
    rw [hc] at this
    simp at this

theorem emitLine_domain_only (cfg : Opts) (ip h : String)
    (out : Streams) (hd : cfg.Domain = true) :
    ∃ t : String,
      emitLine cfg ip out h = { stdout := out.stdout ++ [t ++ "\n"], stderr := out.stderr } ∧
      (∃ k, h = t ++ String.mk (List.replicate k '.')) ∧
      t.data.getLast? ≠ some '.' ∧
      ((∀ u : String, h ≠ u ++ "..") → t = stripOneTrailingDot h) := by
  obtain ⟨⟨k, hk⟩, hlast⟩ := rdrop_dots h.data
  have hcut : ("." : String).data = ['.'] := rfl
  refine ⟨TrimRight h ".", ?_, ⟨k, ?_⟩, ?_, ?_⟩
  · simp [emitLine, hd, Println, Sprintln, joinOperands]
  · apply String.ext
    simp only [TrimRight, hcut, String.data_append]
    exact hk
  · simpa only [TrimRight, hcut] using hlast
  · intro hno
    have ht : (TrimRight h ".").data
        = (h.data.reverse.dropWhile (fun c => ['.'].contains c)).reverse := by
      simp only [TrimRight, hcut]
    rw [← ht] at hk hlast
    match k, hk with
    | 0, hk =>
      have hEq : h = TrimRight h "." := String.ext (by simpa using hk)
      unfold stripOneTrailingDot
      rw [if_neg (by rw [hEq]; exact hlast)]
      exact hEq.symm
    | 1, hk =>
      unfold stripOneTrailingDot
      have hl : h.data.getLast? = some '.' := by rw [hk]; simp
      rw [if_pos hl]
      apply String.ext
      show (TrimRight h ".").data = h.data.dropLast
      rw [hk]; simp
    | k + 2, hk =>
      exfalso
      apply hno (TrimRight h "." ++ String.mk (List.replicate k '.'))
      apply String.ext
      have hdd : ("..": String).data = ['.', '.'] := rfl
      simp only [String.data_append, hdd]
      rw [hk, List.append_assoc]
      congr 1
      rw [show ['.', '.'] = List.replicate 2 '.' from rfl, ← List.replicate_add]

theorem domainLoop_two_dots (u : List Char) :
    ∀ (last : Char) (nonNumeric : Bool) (partlen : Nat),
      domainLoop (u ++ ['.', '.']) last nonNumeric partlen = false := by
  induction u with
  | nil =>
    intro last nn pl
    simp only [List.nil_append, domainLoop]
    have h1 : isLetterOrUnderscore '.' = false := by decide
    have h2 : isDigit '.' = false := by decide
    have h3 : ('.' : Char) ≠ '-' := by decide
    simp [h1, h2, h3]
  | cons c u ih =>
    intro last nn pl
    simp only [List.cons_append, domainLoop]
    split_ifs <;> first | rfl | exact ih _ _ _

theorem isDomainName_no_two_dots (h : String) (hv : isDomainName h = true) (u : String) :
    h ≠ u ++ ".." := by
  intro hu
  have hdata : h.data = u.data ++ ['.', '.'] := by rw [hu]; rfl
  unfold isDomainName at hv
  split_ifs at hv with h1 h2
  · rw [h1] at hdata
    have := congrArg List.length hdata
    simp at this
  · rw [hdata, domainLoop_two_dots] at hv
    exact Bool.false_ne_true hv

/-- Claim C1: in domain-only mode, for every hostname `h` returned by a
successful lookup (`net.LookupAddr` returns without error only names that
pass `isDomainName`), the line written by `doWork` is `h` with exactly one
trailing dot removed when `h` ends in a dot, and `h` unchanged when it does
not.  No such hostname ends in two dots, so none loses more than one. -/
theorem c1_domain_only_strips_one_trailing_dot (cfg : Opts) (ip h : String)
    (out : Streams) (hd : cfg.Domain = true) (hv : isDomainName h = true) :
    emitLine cfg ip out h
      = { stdout := out.stdout ++ [stripOneTrailingDot h ++ "\n"], stderr := out.stderr } ∧
    (∀ u : String, h ≠ u ++ "..") := by
  have hno := isDomainName_no_two_dots h hv
  obtain ⟨t, he, _, _, ht⟩ := emitLine_domain_only cfg ip h out hd
  rw [he, ht hno]
  exact ⟨rfl, hno⟩

/-- Witness for `c1_domain_only_strips_one_trailing_dot`. -/
theorem c1_domain_only_strips_one_trailing_dot_witness :
    isDomainName "host.example.com." = true ∧
    emitLine { Domain := true } "192.0.2.5" { stdout := [], stderr := [] }
        "host.example.com."
      = { stdout := [] ++ ["host.example.com" ++ "\n"], stderr := [] } ∧
    isDomainName "host.example.com" = true ∧
    emitLine { Domain := true } "192.0.2.5" { stdout := [], stderr := [] }
        "host.example.com"
      = { stdout := [] ++ ["host.example.com" ++ "\n"], stderr := [] } :=
  ⟨by decide,
   (c1_domain_only_strips_one_trailing_dot { Domain := true } "192.0.2.5"
      "host.example.com." { stdout := [], stderr := [] } rfl (by decide)).1,
   by decide,
   (c1_domain_only_strips_one_trailing_dot { Domain := true } "192.0.2.5"
      "host.example.com" { stdout := [], stderr := [] } rfl (by decide)).1⟩

/-- Claim C2, the claim as stated fails: in default mode a worker that looks
up 192.0.2.5 and is answered "example.com." writes the address, a space, a
tab, a space and the hostname, not the address, a tab and the hostname. -/
theorem c2_tab_is_surrounded_by_spaces :
    (doWork { ResolverIP := "8.8.8.8", Protocol := "udp", Port := 53 } fsMissing
        (netAnswering ["example.com."]) ["192.0.2.5"]
        { stdout := [], stderr := [] }).stdout = ["192.0.2.5 \t example.com.\n"] ∧
    (doWork { ResolverIP := "8.8.8.8", Protocol := "udp", Port := 53 } fsMissing
        (netAnswering ["example.com."]) ["192.0.2.5"]
        { stdout := [], stderr := [] }).stdout ≠ ["192.0.2.5\texample.com.\n"] := by
  decide

/-- Claim C2, amended: in default mode the line written for work item `ip`
and hostname `h` is `ip`, a space, a tab, a space, then `h` with its trailing
dot untouched, and nothing else on the line. -/
theorem c2_default_mode_line (cfg : Opts) (ip h : String) (out : Streams)
    (hd : cfg.Domain = false) :
    emitLine cfg ip out h
      = { stdout := out.stdout ++ [ip ++ " \t " ++ h ++ "\n"], stderr := out.stderr } := by
  simp only [emitLine, hd, Println, Sprintln, joinOperands]
  simp only [Bool.false_eq_true, if_false, Streams.mk.injEq, and_true]
  congr 2
  apply String.ext
  simp [String.data_append]

/-- Witness for `c2_default_mode_line`. -/
theorem c2_default_mode_line_witness :
    emitLine {} "192.0.2.5" { stdout := [], stderr := [] } "example.com."
      = { stdout := [] ++ ["192.0.2.5" ++ " \t " ++ "example.com." ++ "\n"], stderr := [] } :=
  c2_default_mode_line {} "192.0.2.5" "example.com." { stdout := [], stderr := [] } rfl

/-! ## Worker count -/

/-- Claim C3, the code at the failing inputs: without `-t`, with `-t` as the
last argument, and with `-t` followed by a word that is not an integer,
`main` starts no worker at all (the claim says 8); with `-t 5` it starts 5.
A run without `-t` therefore has no worker stream and writes nothing, even
for an address that a configured resolver would answer. -/
theorem c3_default_worker_count_is_zero :
    (parseArgs []).map numWorkers = .ok 0 ∧
    (parseArgs ["-d"]).map numWorkers = .ok 0 ∧
    (parseArgs ["-t"]).map numWorkers = .ok 0 ∧
    (parseArgs ["-t", "eight"]).map numWorkers = .ok 0 ∧
    (parseArgs ["-t", "5"]).map numWorkers = .ok 5 ∧
    main [] fsMissing (netAnswering ["example.com."]) "192.0.2.5\n" [0] = .ok [] ∧
    stdoutLines (runPool { ResolverIP := "8.8.8.8", Port := 53 } fsMissing
      (netAnswering ["example.com."]) "192.0.2.5\n" [0]) = [] := by
  refine ⟨rfl, rfl, rfl, rfl, rfl, rfl, rfl⟩

/-! ## The resolver list -/

theorem scanResolvers_eq (L : List String) (rs : List String) :
    scanResolvers L rs = rs ++ (L.map TrimSpace).filter (fun r => decide (r ≠ "")) := by
  induction L generalizing rs with
  | nil => simp [scanResolvers]
  | cons l L ih =>
    have hstep : scanResolvers (l :: L) rs
        = scanResolvers L (if TrimSpace l ≠ "" then rs ++ [TrimSpace l] else rs) := by
      simp [scanResolvers]
    rw [hstep, ih]
    by_cases h : TrimSpace l = ""
    · simp [h]
    · simp [h]

/-- Claim C4: the resolver list a worker builds is the single endpoint
"ResolverIP:Port" first when a single resolver is configured, followed by the
trimmed, non-blank lines of the resolvers file in file order, whenever the
file is read without error; nothing is printed while it is built.  With no
file configured the list is the single endpoint alone, and with neither a
single resolver nor a file it is empty, without error. -/
theorem c4_resolver_list (cfg : Opts) (fs : FileSystem) (out : Streams) :
    (∀ L : List String, cfg.ResolversFile ≠ "" →
      fs.Open cfg.ResolversFile = .ok { lines := L, err := none } →
      buildResolvers cfg fs out = (out, some (resolverSetSpec cfg L))) ∧
    (cfg.ResolversFile = "" →
      buildResolvers cfg fs out = (out, some (resolverSetSpec cfg []))) ∧
    (cfg.ResolverIP = "" → cfg.ResolversFile = "" →
      buildResolvers cfg fs out = (out, some [])) := by
  refine ⟨fun L hf hopen => ?_, fun hf => ?_, fun hr hf => ?_⟩
  · unfold buildResolvers
    simp only [hf, hopen, ne_eq, not_false_eq_true, if_true]
    rw [scanResolvers_eq]
    by_cases hr : cfg.ResolverIP = ""
    · simp [hr, resolverSetSpec]
    · simp [hr, resolverSetSpec, sprintfHostPort]
  · unfold buildResolvers
    by_cases hr : cfg.ResolverIP = ""
    · simp [hr, hf, resolverSetSpec]
    · simp [hr, hf, resolverSetSpec, sprintfHostPort]
  · simp [buildResolvers, hr, hf]

/-- Witness for `c4_resolver_list`. -/
theorem c4_resolver_list_witness :
    buildResolvers { ResolverIP := "8.8.8.8", Port := 53, ResolversFile := "r.txt" }
        fsThreeLines { stdout := [], stderr := [] }
      = ({ stdout := [], stderr := [] }, some ["8.8.8.8:53", "9.9.9.9:53", "1.1.1.1:53"]) ∧
    buildResolvers { ResolverIP := "8.8.8.8", Port := 53 } fsMissing
        { stdout := [], stderr := [] }
      = ({ stdout := [], stderr := [] }, some ["8.8.8.8:53"]) ∧
    buildResolvers {} fsMissing { stdout := [], stderr := [] }
      = ({ stdout := [], stderr := [] }, some []) :=
  ⟨(c4_resolver_list { ResolverIP := "8.8.8.8", Port := 53, ResolversFile := "r.txt" }
      fsThreeLines { stdout := [], stderr := [] }).1
      ["  9.9.9.9:53 ", "", "1.1.1.1:53\t"] (by decide) rfl,
   (c4_resolver_list { ResolverIP := "8.8.8.8", Port := 53 } fsMissing
      { stdout := [], stderr := [] }).2.1 rfl,
   (c4_resolver_list {} fsMissing { stdout := [], stderr := [] }).2.2 rfl rfl⟩

/-! ## The resolution loop -/

theorem emitLine_eq (cfg : Opts) (ip a : String) (out : Streams) :
    emitLine cfg ip out a
      = { stdout := out.stdout ++ [resultLine cfg ip a], stderr := out.stderr } := by
  unfold emitLine resultLine Println
  by_cases hd : cfg.Domain = true <;> simp [hd]

theorem emitLoop_eq (cfg : Opts) (ip : String) (addr : List String) (out : Streams) :
    addr.foldl (emitLine cfg ip) out
      = { stdout := out.stdout ++ addr.map (resultLine cfg ip), stderr := out.stderr } := by
  induction addr generalizing out with
  | nil => simp
  | cons a addr ih => rw [List.foldl_cons, ih, emitLine_eq]; simp

theorem resolveItem_eq (cfg : Opts) (net : Network) (R : List String) (ip : String)
    (out : Streams) :
    resolveItem cfg net R out ip
      = { stdout := out.stdout ++ R.flatMap (endpointLines cfg net ip),
          stderr := out.stderr } := by
  induction R generalizing out with
  | nil => simp [resolveItem]
  | cons r R ih =>
    have hstep : resolveItem cfg net (r :: R) out ip
        = resolveItem cfg net R
            (match lookupAddrWithContext cfg net ip r with
              | .error _ => out
              | .ok addr => addr.foldl (emitLine cfg ip) out) ip := by
      simp [resolveItem]
    rw [hstep, ih]
    unfold lookupAddrWithContext endpointLines
    cases hdial : net.DialContext cfg.Protocol r with
    | error e => simp [hdial]
    | ok u =>
      cases hlook : net.LookupAddr ip with
      | error e => simp [hdial, hlook]
      | ok hosts => simp [hdial, hlook, emitLoop_eq]

theorem workLoop_eq (cfg : Opts) (net : Network) (R : List String) (work : List String)
    (out : Streams) :
    work.foldl (resolveItem cfg net R) out
      = { stdout := out.stdout
            ++ work.flatMap (fun ip => R.flatMap (endpointLines cfg net ip)),
          stderr := out.stderr } := by
  induction work generalizing out with
  | nil => simp
  | cons ip work ih => rw [List.foldl_cons, ih, resolveItem_eq]; simp

theorem doWork_open_failure (cfg : Opts) (fs : FileSystem) (net : Network)
    (work : List String) (out : Streams) (e : String)
    (hf : cfg.ResolversFile ≠ "") (hopen : fs.Open cfg.ResolversFile = .error e) :
    doWork cfg fs net work out
      = { stdout := out.stdout ++ ["Failed to open resolvers file: " ++ e ++ "\n"],
          stderr := out.stderr } := by
  simp only [doWork, buildResolvers, hf, hopen, ne_eq, not_false_eq_true, if_true,
    Println, Sprintln, joinOperands]
  simp only [Streams.mk.injEq, and_true]
  congr 2

theorem doWork_read_failure (cfg : Opts) (fs : FileSystem) (net : Network)
    (work : List String) (out : Streams) (L : List String) (e : String)
    (hf : cfg.ResolversFile ≠ "")
    (hopen : fs.Open cfg.ResolversFile = .ok { lines := L, err := some e }) :
    doWork cfg fs net work out
      = { stdout := out.stdout ++ ["Failed to read resolvers file: " ++ e ++ "\n"],
          stderr := out.stderr } := by
  simp only [doWork, buildResolvers, hf, hopen, ne_eq, not_false_eq_true, if_true,
    Println, Sprintln, joinOperands]
  simp only [Streams.mk.injEq, and_true]
  congr 2

theorem buildResolvers_stderr (cfg : Opts) (fs : FileSystem) (out : Streams) :
    (buildResolvers cfg fs out).1.stderr = out.stderr := by
  unfold buildResolvers
  by_cases hf : cfg.ResolversFile = ""
  · simp [hf]
  · simp only [ne_eq, hf, not_false_eq_true, if_true]
    cases fs.Open cfg.ResolversFile with
    | error e => simp [Println]
    | ok file =>
      cases hfe : file.err with
      | none => simp [hfe]
      | some e => simp [hfe, Println]

theorem doWork_stderr (cfg : Opts) (fs : FileSystem) (net : Network)
    (work : List String) (out : Streams) :
    (doWork cfg fs net work out).stderr = out.stderr := by
  have hb := buildResolvers_stderr cfg fs out
  unfold doWork
  rcases hres : buildResolvers cfg fs out with ⟨out1, rs⟩
  rw [hres] at hb
  cases rs with
  | none => simpa using hb
  | some R => simp only [workLoop_eq]; simpa using hb

/-- Claim C6, the claim as stated fails: with `-r 8.8.8.8 -p 53` and a
resolvers file that cannot be opened, the lookup of 192.0.2.5 through the
`-r` endpoint succeeds, yet the run of 8 workers writes the open-failure
line 8 times and no result line; the same run without `-f` writes the
result line. -/
theorem c6_open_failure_loses_single_resolver_results :
    lookupAddrWithContext
        { Threads := 8, ResolverIP := "8.8.8.8", Port := 53, ResolversFile := "resolvers.txt" }
        (netAnswering ["host.example.com."]) "192.0.2.5" "8.8.8.8:53"
      = .ok ["host.example.com."] ∧
    stdoutLines (runPool
        { Threads := 8, ResolverIP := "8.8.8.8", Port := 53, ResolversFile := "resolvers.txt" }
        fsMissing (netAnswering ["host.example.com."]) "192.0.2.5\n" [0])
      = List.replicate 8
          "Failed to open resolvers file: open resolvers.txt: no such file or directory\n" ∧
    "192.0.2.5 \t host.example.com.\n" ∉ stdoutLines (runPool
        { Threads := 8, ResolverIP := "8.8.8.8", Port := 53, ResolversFile := "resolvers.txt" }
        fsMissing (netAnswering ["host.example.com."]) "192.0.2.5\n" [0]) ∧
    stdoutLines (runPool { Threads := 8, ResolverIP := "8.8.8.8", Protocol := "udp", Port := 53 }
        fsMissing (netAnswering ["host.example.com."]) "192.0.2.5\n" [0])
      = ["192.0.2.5 \t host.example.com.\n"] := by
  refine ⟨rfl, by decide, by decide, by decide⟩

/-- Claim C6, amended: when the configured resolvers file cannot be opened,
every worker of the run writes the single line "Failed to open resolvers
file: <error>" and returns without taking a work item, whether or not a
single resolver is supplied with `-r`; the run writes no result line. -/
theorem c6_open_failure_stops_every_worker (cfg : Opts) (fs : FileSystem) (net : Network)
    (stdin : String) (dist : List Nat) (e : String)
    (hf : cfg.ResolversFile ≠ "") (hopen : fs.Open cfg.ResolversFile = .error e) :
    runPool cfg fs net stdin dist
      = List.replicate (numWorkers cfg)
          { stdout := ["Failed to open resolvers file: " ++ e ++ "\n"], stderr := [] } := by
  unfold runPool runWorkers
  simp only [doWork_open_failure cfg fs net _ _ e hf hopen, List.nil_append]
  rw [List.eq_replicate_iff]
  simp

/-- Witness for `c6_open_failure_stops_every_worker`. -/
theorem c6_open_failure_stops_every_worker_witness :
    runPool { Threads := 8, ResolverIP := "8.8.8.8", Port := 53, ResolversFile := "resolvers.txt" }
        fsMissing (netAnswering ["host.example.com."]) "192.0.2.5\n" [0]
      = List.replicate
          (numWorkers
            { Threads := 8, ResolverIP := "8.8.8.8", Port := 53, ResolversFile := "resolvers.txt" })
          { stdout := ["Failed to open resolvers file: "
              ++ "open resolvers.txt: no such file or directory" ++ "\n"], stderr := [] } :=
  c6_open_failure_stops_every_worker
    { Threads := 8, ResolverIP := "8.8.8.8", Port := 53, ResolversFile := "resolvers.txt" }
    fsMissing (netAnswering ["host.example.com."]) "192.0.2.5\n" [0]
    "open resolvers.txt: no such file or directory" (by decide) rfl

/-- Claim C7, the claim as stated fails: a worker that cannot open the
resolvers file writes its diagnostic to standard output, which then holds
a line that is not a result line, and writes nothing to the error stream. -/
theorem c7_diagnostic_goes_to_stdout :
    doWork { ResolverIP := "8.8.8.8", Port := 53, ResolversFile := "resolvers.txt" }
        fsMissing (netAnswering ["host.example.com."]) ["192.0.2.5"]
        { stdout := [], stderr := [] }
      = { stdout :=
            ["Failed to open resolvers file: open resolvers.txt: no such file or directory\n"],
          stderr := [] } := by
  decide

theorem runPool_stderr (cfg : Opts) (fs : FileSystem) (net : Network)
    (stdin : String) (dist : List Nat) :
    stderrLines (runPool cfg fs net stdin dist) = [] := by
  unfold stderrLines runPool runWorkers
  rw [List.flatMap_eq_nil_iff]
  intro o ho
  obtain ⟨j, _, rfl⟩ := List.mem_map.mp ho
  exact doWork_stderr cfg fs net _ _

/-- Claim C7, amended: when a worker fails to open or to read the resolvers
file, its diagnostic, "Failed to open resolvers file: <error>" or "Failed to
read resolvers file: <error>", is the one line it writes to standard
output; it writes nothing to the error stream, and no worker of any run
ever does. -/
theorem c7_diagnostic_is_the_only_write (cfg : Opts) (fs : FileSystem) (net : Network)
    (work : List String) (out : Streams) :
    (∀ e : String, cfg.ResolversFile ≠ "" → fs.Open cfg.ResolversFile = .error e →
      doWork cfg fs net work out
        = { stdout := out.stdout ++ ["Failed to open resolvers file: " ++ e ++ "\n"],
            stderr := out.stderr }) ∧
    (∀ (L : List String) (e : String), cfg.ResolversFile ≠ "" →
      fs.Open cfg.ResolversFile = .ok { lines := L, err := some e } →
      doWork cfg fs net work out
        = { stdout := out.stdout ++ ["Failed to read resolvers file: " ++ e ++ "\n"],
            stderr := out.stderr }) ∧
    (doWork cfg fs net work out).stderr = out.stderr ∧
    (∀ (stdin : String) (dist : List Nat),
      stderrLines (runPool cfg fs net stdin dist) = []) :=
  ⟨fun e hf hopen => doWork_open_failure cfg fs net work out e hf hopen,
   fun L e hf hopen => doWork_read_failure cfg fs net work out L e hf hopen,
   doWork_stderr cfg fs net work out,
   fun stdin dist => runPool_stderr cfg fs net stdin dist⟩

/-- Witness for `c7_diagnostic_is_the_only_write`. -/
theorem c7_diagnostic_is_the_only_write_witness :
    doWork { ResolversFile := "r.txt" } fsMissing (netAnswering ["a."]) ["192.0.2.5"]
        { stdout := [], stderr := [] }
      = { stdout := [] ++ ["Failed to open resolvers file: "
            ++ "open r.txt: no such file or directory" ++ "\n"], stderr := [] } ∧
    doWork { ResolversFile := "r.txt" } fsReadError (netAnswering ["a."]) ["192.0.2.5"]
        { stdout := [], stderr := [] }
      = { stdout := [] ++ ["Failed to read resolvers file: "
            ++ "read r.txt: input/output error" ++ "\n"], stderr := [] } :=
  ⟨(c7_diagnostic_is_the_only_write { ResolversFile := "r.txt" } fsMissing
      (netAnswering ["a."]) ["192.0.2.5"] { stdout := [], stderr := [] }).1
      "open r.txt: no such file or directory" (by decide) rfl,
   (c7_diagnostic_is_the_only_write { ResolversFile := "r.txt" } fsReadError
      (netAnswering ["a."]) ["192.0.2.5"] { stdout := [], stderr := [] }).2.1
      ["9.9.9.9:53"] "read r.txt: input/output error" (by decide) rfl⟩

/-! ## The producer -/

theorem dropFinalEmpty_cons (x y : List Char) (ys : List (List Char)) :
    dropFinalEmpty (x :: y :: ys) = x :: dropFinalEmpty (y :: ys) := by
  unfold dropFinalEmpty
  simp only [List.getLast?_cons_cons, List.dropLast_cons₂]
  split_ifs <;> rfl

theorem scanLoop_lines (input : List Char) :
    ∀ held : List Char,
      (scanLoop input held).lines
        = ((dropFinalEmpty
              ((input.splitOn '\n').modifyHead (fun p => held.reverse ++ p))).takeWhile
            fitsBuffer).map
          (fun l => String.mk (dropCR l)) := by
  unfold fitsBuffer
  induction input with
  | nil =>
    intro held
    have h0 : ([] : List Char).splitOn '\n' = [[]] := by simp [List.splitOn]
    rw [h0]
    simp only [scanLoop, List.modifyHead, List.append_nil]
    cases held with
    | nil => simp [dropFinalEmpty]
    | cons c held =>
      have hne : (c :: held).reverse ≠ [] := by simp
      have : dropFinalEmpty [(c :: held).reverse] = [(c :: held).reverse] := by
        simp [dropFinalEmpty]
      rw [this]
      by_cases hf : byteLen (c :: held).reverse < MaxScanTokenSize
      · simp only [List.reverse_cons] at hf
        simp [hf, List.takeWhile]
      · simp only [List.reverse_cons] at hf
        simp [hf, List.takeWhile]
  | cons c input ih =>
    intro held
    obtain ⟨q, qs, hq⟩ : ∃ q qs, input.splitOn '\n' = q :: qs := by
      have := List.splitOnP_ne_nil (· == '\n') input
      cases hs : input.splitOn '\n' with
      | nil => exact absurd hs this
      | cons q qs => exact ⟨q, qs, rfl⟩
    by_cases hc : c = '\n'
    · have hsp : (c :: input).splitOn '\n' = [] :: input.splitOn '\n' := by
        simp [List.splitOn, List.splitOnP_cons, hc]
      have ih0 := ih []
      rw [hq] at ih0
      simp only [List.modifyHead, List.reverse_nil, List.nil_append] at ih0
      rw [hsp, hq]
      simp only [scanLoop, hc, if_true, List.modifyHead, List.append_nil]
      rw [dropFinalEmpty_cons]
      by_cases hf : byteLen held.reverse < MaxScanTokenSize
      · simp [hf, ih0]
      · simp [hf]
    · have hsp : (c :: input).splitOn '\n' = (c :: q) :: qs := by
        have hb : (c == '\n') = false := by simpa using hc
        simp only [List.splitOn] at hq ⊢
        rw [List.splitOnP_cons, hq]
        simp [hb, List.modifyHead]
      have ih1 := ih (c :: held)
      rw [hq] at ih1
      rw [hsp]
      simp only [scanLoop, hc, if_false]
      rw [ih1]
      simp [List.modifyHead]

theorem scanStdin_lines (stdin : String) :
    (scanStdin stdin).lines
      = ((rawLines stdin).takeWhile fitsBuffer).map (fun l => String.mk (dropCR l)) := by
  unfold scanStdin rawLines
  rw [scanLoop_lines]
  have h : ∀ parts : List (List Char),
      parts.modifyHead (fun p => ([] : List Char).reverse ++ p) = parts := by
    intro parts
    cases parts <;> simp [List.modifyHead]
  rw [h]

theorem sendAll_receiving (receivers : Nat) (hr : 0 < receivers) (items : List String) :
    ∀ work : Chan, sendAll receivers items work
      = ({ sent := work.sent ++ items, closed := work.closed }, true) := by
  have hne : receivers ≠ 0 := by omega
  induction items with
  | nil => intro work; simp [sendAll]
  | cons text items ih => intro work; simp [sendAll, hne, ih]

theorem producer_receiving (stdin : String) (receivers : Nat) (hr : 0 < receivers) :
    producer stdin receivers = { sent := (scanStdin stdin).lines, closed := true } := by
  unfold producer
  simp [sendAll_receiving receivers hr]

theorem producer_blocked (stdin : String) : (producer stdin 0).sent = [] := by
  unfold producer
  cases h : (scanStdin stdin).lines <;> simp [sendAll, h]

theorem byteLen_replicate (n : Nat) : byteLen (List.replicate n 'a') = n := by
  have h : Char.utf8Size 'a' = 1 := by decide
  unfold byteLen
  rw [List.map_replicate, h, List.sum_replicate]
  simp

theorem rawLines_long (n : Nat) :
    rawLines (String.mk (List.replicate n 'a' ++ '\n' :: "192.0.2.5\n".data))
      = [List.replicate n 'a', "192.0.2.5".data] := by
  have hfirst : (List.replicate n 'a' ++ '\n' :: "192.0.2.5\n".data).splitOn '\n'
      = List.replicate n 'a' :: ("192.0.2.5\n".data).splitOn '\n' := by
    unfold List.splitOn
    apply List.splitOnP_first
    · intro x hx
      rw [List.eq_of_mem_replicate hx]
      decide
    · rfl
  have htail : ("192.0.2.5\n".data).splitOn '\n' = ["192.0.2.5".data, []] := by decide
  unfold rawLines
  rw [hfirst, htail, dropFinalEmpty_cons]
  have : dropFinalEmpty ["192.0.2.5".data, []] = ["192.0.2.5".data] := by decide
  rw [this]

theorem scanStdin_long (n : Nat) (hn : MaxScanTokenSize ≤ n) :
    (scanStdin (String.mk (List.replicate n 'a' ++ '\n' :: "192.0.2.5\n".data))).lines
      = [] := by
  rw [scanStdin_lines, rawLines_long]
  have : fitsBuffer (List.replicate n 'a') = false := by
    unfold fitsBuffer
    rw [byteLen_replicate]
    simpa using hn
  simp [List.takeWhile, this]

theorem producer_long (n : Nat) (hn : MaxScanTokenSize ≤ n) (receivers : Nat)
    (hr : 0 < receivers) :
    (producer (String.mk (List.replicate n 'a' ++ '\n' :: "192.0.2.5\n".data))
        receivers).sent = [] := by
  rw [producer_receiving _ _ hr]
  exact scanStdin_long n hn

/-- Claim C8, the claim as stated fails.  The input "192.0.2.5", carriage
return, newline has the one raw line "192.0.2.5" followed by a carriage
return, and the item pushed is "192.0.2.5" without it.  With a resolvers
file that cannot be opened no worker receives, and for the one line of the
input no item is pushed.  For the input of two lines whose first line has
65536 bytes the scanner stops at the first line and no item is pushed. -/
theorem c8_items_are_not_the_raw_lines :
    (rawLines "192.0.2.5\r\n" = ["192.0.2.5\r".data] ∧
      (producer "192.0.2.5\r\n" 8).sent = ["192.0.2.5"]) ∧
    (liveReceivers
        { Threads := 8, ResolverIP := "8.8.8.8", Port := 53, ResolversFile := "resolvers.txt" }
        fsMissing = 0 ∧
      (rawLines "192.0.2.5\n").length = 1 ∧
      (producer "192.0.2.5\n" (liveReceivers
        { Threads := 8, ResolverIP := "8.8.8.8", Port := 53, ResolversFile := "resolvers.txt" }
        fsMissing)).sent = []) ∧
    ((rawLines longLineInput).length = 2 ∧ (producer longLineInput 8).sent = []) := by
  refine ⟨⟨by decide, by decide⟩, ⟨by decide, by decide, by decide⟩, ?_, ?_⟩
  · unfold longLineInput
    rw [rawLines_long]
    rfl
  · exact producer_long 65536 (by norm_num [MaxScanTokenSize]) 8 (by decide)

/-- Claim C8, amended: for every finite input, when at least one worker is
receiving from the channel, the producer pushes one work item for each input
line, in input order, up to and not including the first line of 65536 bytes
or more, each item equal to the line without its newline and without one
carriage return before the newline (empty lines are pushed, none is
filtered), and then closes the channel; so for K lines that are all shorter
than 65536 bytes it pushes exactly K items.  When no worker is receiving it
pushes no item. -/
theorem c8_producer_sends_scanned_lines (stdin : String) (receivers : Nat) :
    (0 < receivers →
      (producer stdin receivers).sent
        = ((rawLines stdin).takeWhile fitsBuffer).map (fun l => String.mk (dropCR l)) ∧
      (producer stdin receivers).closed = true) ∧
    (0 < receivers → (∀ l ∈ rawLines stdin, byteLen l < MaxScanTokenSize) →
      (producer stdin receivers).sent
        = (rawLines stdin).map (fun l => String.mk (dropCR l)) ∧
      (producer stdin receivers).sent.length = (rawLines stdin).length) ∧
    (receivers = 0 → (producer stdin receivers).sent = []) := by
  refine ⟨fun hr => ?_, fun hr hfit => ?_, fun h0 => ?_⟩
  · rw [producer_receiving stdin receivers hr, scanStdin_lines]
    exact ⟨rfl, rfl⟩
  · have hall : (rawLines stdin).takeWhile fitsBuffer = rawLines stdin := by
      rw [List.takeWhile_eq_self_iff]
      intro l hl
      simpa [fitsBuffer] using hfit l hl
    rw [producer_receiving stdin receivers hr, scanStdin_lines, hall]
    exact ⟨rfl, by simp⟩
  · rw [h0]
    exact producer_blocked stdin

/-- Witness for `c8_producer_sends_scanned_lines`. -/
theorem c8_producer_sends_scanned_lines_witness :
    (producer "192.0.2.5\r\n\n192.0.2.6" 8).sent
        = (rawLines "192.0.2.5\r\n\n192.0.2.6").map (fun l => String.mk (dropCR l)) ∧
    (producer "192.0.2.5\r\n\n192.0.2.6" 8).sent.length
        = (rawLines "192.0.2.5\r\n\n192.0.2.6").length :=
  (c8_producer_sends_scanned_lines "192.0.2.5\r\n\n192.0.2.6" 8).2.1
    (by decide) (by decide)

/-! ## Independence of the worker count -/

theorem received_subset (j : Nat) (items : List String) (dist : List Nat) (ip : String)
    (h : ip ∈ received j items dist) : ip ∈ items := by
  unfold received at h
  rw [List.mem_map] at h
  obtain ⟨p, hp, rfl⟩ := h
  exact (List.of_mem_zip (List.mem_filter.mp hp).1).1

theorem received_cover (items : List String) (dist : List Nat) (ip : String)
    (hlen : dist.length = items.length) (h : ip ∈ items) :
    ∃ j ∈ dist, ip ∈ received j items dist := by
  induction items generalizing dist with
  | nil => simp at h
  | cons a items ih =>
    cases dist with
    | nil => simp at hlen
    | cons d dist =>
      rcases List.mem_cons.mp h with rfl | hm
      · exact ⟨d, List.mem_cons_self _ _, by simp [received]⟩
      · obtain ⟨j, hj, hr⟩ := ih dist (by simpa using hlen) hm
        refine ⟨j, List.mem_cons_of_mem _ hj, ?_⟩
        unfold received at hr ⊢
        rw [List.mem_map] at hr ⊢
        obtain ⟨p, hp, hpe⟩ := hr
        refine ⟨p, ?_, hpe⟩
        rw [List.mem_filter] at hp ⊢
        exact ⟨by rw [List.zip_cons_cons]; exact List.mem_cons_of_mem _ hp.1, hp.2⟩

theorem mem_stdoutLines_runWorkers (cfg : Opts) (fs : FileSystem) (net : Network)
    (items : List String) (dist : List Nat) (hn : 0 < numWorkers cfg)
    (hd : validDist (numWorkers cfg) items.length dist) (l : String) :
    l ∈ stdoutLines (runWorkers cfg fs net items dist) ↔ l ∈ poolLines cfg fs net items := by
  obtain ⟨hlen, hlt⟩ := hd
  unfold stdoutLines runWorkers poolLines
  simp only [List.mem_flatMap, List.mem_map, List.mem_range]
  unfold doWork
  rcases buildResolvers cfg fs { stdout := [], stderr := [] } with ⟨out, rs⟩
  cases rs with
  | none =>
    constructor
    · rintro ⟨o, ⟨j, _, rfl⟩, hl⟩
      exact hl
    · intro hl
      exact ⟨out, ⟨0, hn, rfl⟩, hl⟩
  | some R =>
    simp only [workLoop_eq, List.mem_append, List.mem_flatMap]
    constructor
    · rintro ⟨o, ⟨j, _, rfl⟩, hl⟩
      rcases List.mem_append.mp hl with hl | hl
      · exact Or.inl hl
      · obtain ⟨ip, hip, hr⟩ := List.mem_flatMap.mp hl
        exact Or.inr ⟨ip, received_subset j items dist ip hip, List.mem_flatMap.mp hr⟩
    · rintro (hl | ⟨ip, hip, hr⟩)
      · exact ⟨_, ⟨0, hn, rfl⟩, List.mem_append.mpr (Or.inl hl)⟩
      · obtain ⟨j, hj, hrec⟩ := received_cover items dist ip hlen hip
        refine ⟨_, ⟨j, hlt j hj, rfl⟩, List.mem_append.mpr (Or.inr ?_)⟩
        exact List.mem_flatMap.mpr ⟨ip, hrec, List.mem_flatMap.mpr hr⟩

theorem mem_stdoutLines_runPool (cfg : Opts) (fs : FileSystem) (net : Network)
    (stdin : String) (dist : List Nat) (hn : 0 < numWorkers cfg)
    (hd : validDist (numWorkers cfg) (scanStdin stdin).lines.length dist) (l : String) :
    l ∈ stdoutLines (runPool cfg fs net stdin dist)
      ↔ l ∈ poolLines cfg fs net (scanStdin stdin).lines := by
  unfold runPool
  simp only []
  cases hb : buildResolvers cfg fs { stdout := [], stderr := [] } with
  | mk out rs =>
    cases rs with
    | some R =>
      have hlive : liveReceivers cfg fs = numWorkers cfg := by simp [liveReceivers, hb]
      rw [hlive, producer_receiving stdin _ hn]
      exact mem_stdoutLines_runWorkers cfg fs net _ dist hn hd l
    | none =>
      have hlive : liveReceivers cfg fs = 0 := by simp [liveReceivers, hb]
      rw [hlive, producer_blocked]
      unfold stdoutLines runWorkers poolLines
      simp only [List.mem_flatMap, List.mem_map, List.mem_range, doWork, hb]
      constructor
      · rintro ⟨o, ⟨j, _, rfl⟩, hl⟩
        exact hl
      · intro hl
        exact ⟨out, ⟨0, hn, rfl⟩, hl⟩

/-- Claim C9: for the same input lines, the same configuration apart from
the worker count, and the same (deterministic) file-system and lookup
oracles, a run with 1 worker and a run with 8 workers write the same set of
lines to standard output, whatever way the work items are distributed
among the workers: for the workers on any list of items passing through the
channel, and for the whole run on any text of standard input. -/
theorem c9_one_and_eight_workers_same_lines (cfg : Opts) (fs : FileSystem) (net : Network)
    (dist1 dist8 : List Nat) (l : String) :
    (∀ items : List String,
      validDist 1 items.length dist1 → validDist 8 items.length dist8 →
      (l ∈ stdoutLines (runWorkers { cfg with Threads := 1 } fs net items dist1) ↔
        l ∈ stdoutLines (runWorkers { cfg with Threads := 8 } fs net items dist8))) ∧
    (∀ stdin : String,
      validDist 1 (scanStdin stdin).lines.length dist1 →
      validDist 8 (scanStdin stdin).lines.length dist8 →
      (l ∈ stdoutLines (runPool { cfg with Threads := 1 } fs net stdin dist1) ↔
        l ∈ stdoutLines (runPool { cfg with Threads := 8 } fs net stdin dist8))) := by
  constructor
  · intro items h1 h8
    rw [mem_stdoutLines_runWorkers { cfg with Threads := 1 } fs net items dist1
        (by simp [numWorkers]) h1,
      mem_stdoutLines_runWorkers { cfg with Threads := 8 } fs net items dist8
        (by simp [numWorkers]) h8]
    exact Iff.rfl
  · intro stdin h1 h8
    rw [mem_stdoutLines_runPool { cfg with Threads := 1 } fs net stdin dist1
        (by simp [numWorkers]) h1,
      mem_stdoutLines_runPool { cfg with Threads := 8 } fs net stdin dist8
        (by simp [numWorkers]) h8]
    exact Iff.rfl

/-- Witness for `c9_one_and_eight_workers_same_lines`. -/
theorem c9_one_and_eight_workers_same_lines_witness :
    validDist 1 2 [0, 0] ∧ validDist 8 2 [3, 7] ∧
    ("192.0.2.6 \t host.example.com.\n" ∈ stdoutLines (runWorkers
        { Threads := 1, ResolverIP := "8.8.8.8", Port := 53 } fsMissing
        (netAnswering ["host.example.com."]) ["192.0.2.5", "192.0.2.6"] [0, 0]) ↔
      "192.0.2.6 \t host.example.com.\n" ∈ stdoutLines (runWorkers
        { Threads := 8, ResolverIP := "8.8.8.8", Port := 53 } fsMissing
        (netAnswering ["host.example.com."]) ["192.0.2.5", "192.0.2.6"] [3, 7])) ∧
    ("192.0.2.6 \t host.example.com.\n" ∈ stdoutLines (runPool
        { Threads := 1, ResolverIP := "8.8.8.8", Port := 53 } fsMissing
        (netAnswering ["host.example.com."]) "192.0.2.5\n192.0.2.6\n" [0, 0]) ↔
      "192.0.2.6 \t host.example.com.\n" ∈ stdoutLines (runPool
        { Threads := 8, ResolverIP := "8.8.8.8", Port := 53 } fsMissing
        (netAnswering ["host.example.com."]) "192.0.2.5\n192.0.2.6\n" [3, 7])) :=
  ⟨⟨rfl, by decide⟩, ⟨rfl, by decide⟩,
   (c9_one_and_eight_workers_same_lines { ResolverIP := "8.8.8.8", Port := 53 } fsMissing
      (netAnswering ["host.example.com."]) [0, 0] [3, 7]
      "192.0.2.6 \t host.example.com.\n").1 ["192.0.2.5", "192.0.2.6"]
      ⟨rfl, by decide⟩ ⟨rfl, by decide⟩,
   (c9_one_and_eight_workers_same_lines { ResolverIP := "8.8.8.8", Port := 53 } fsMissing
      (netAnswering ["host.example.com."]) [0, 0] [3, 7]
      "192.0.2.6 \t host.example.com.\n").2 "192.0.2.5\n192.0.2.6\n"
      ⟨rfl, by decide⟩ ⟨rfl, by decide⟩⟩

/-! ## Safety of argument parsing -/

theorem parseArgsLoop_total (args : List String)
    (hr : args.getLast? ≠ some "-r") (hP : args.getLast? ≠ some "-P")
    (hf : args.getLast? ≠ some "-f") :
    ∀ (fuel i : Nat) (o : Opts), args.length - i < fuel →
      ∃ o1, parseArgsLoop args fuel i o = .ok o1 := by
  have hlast : ∀ (i : Nat) (a : String), args[i]? = some a → args[i + 1]? = none →
      args.getLast? = some a := by
    intro i a h1 h2
    have hi : i < args.length := (List.getElem?_eq_some_iff.mp h1).1
    have hi2 : args.length ≤ i + 1 := List.getElem?_eq_none_iff.mp h2
    rw [List.getLast?_eq_getElem?]
    have : args.length - 1 = i := by omega
    rw [this, h1]
  intro fuel
  induction fuel with
  | zero => intro i o h; omega
  | succ fuel ih =>
    intro i o h
    rw [parseArgsLoop]
    cases hget : args[i]? with
    | none => exact ⟨o, rfl⟩
    | some a =>
      have hi : i < args.length := (List.getElem?_eq_some_iff.mp hget).1
      simp only []
      split_ifs with h1 h2 h3 h4 h5 h6
      · exact ih _ _ (by omega)
      · cases hv : args[i + 1]? with
        | none => exact absurd (hlast i a hget hv) (h2 ▸ hr)
        | some v => exact ih _ _ (by omega)
      · cases hv : args[i + 1]? with
        | none => exact absurd (hlast i a hget hv) (h3 ▸ hP)
        | some v => exact ih _ _ (by omega)
      · exact ih _ _ (by omega)
      · exact ih _ _ (by omega)
      · cases hv : args[i + 1]? with
        | none => exact absurd (hlast i a hget hv) (h6 ▸ hf)
        | some v => exact ih _ _ (by omega)
      · exact ih _ _ (by omega)

theorem parseIntArg_append (pre : List String) (x : String) (i : Nat)
    (h : i + 1 < pre.length) : parseIntArg (pre ++ [x]) i = parseIntArg pre i := by
  unfold parseIntArg
  have h2 : i + 1 < (pre ++ [x]).length := by simp; omega
  rw [if_pos h, if_pos h2, List.getElem?_append_left h]

theorem parseUint16Arg_append (pre : List String) (x : String) (i : Nat)
    (h : i + 1 < pre.length) : parseUint16Arg (pre ++ [x]) i = parseUint16Arg pre i := by
  unfold parseUint16Arg
  have h2 : i + 1 < (pre ++ [x]).length := by simp; omega
  rw [if_pos h, if_pos h2, List.getElem?_append_left h]

theorem parseArgsLoop_append (pre : List String) (x : String)
    (R : Opts → Except ParseError Opts)
    (hpre : ∀ a, pre.getLast? = some a → takesValue a = false)
    (hfin : ∀ (fuel : Nat) (o : Opts),
      parseArgsLoop (pre ++ [x]) (fuel + 2) pre.length o = R o) :
    ∀ (fuel i : Nat) (o o1 : Opts), i ≤ pre.length →
      parseArgsLoop pre fuel i o = .ok o1 →
      parseArgsLoop (pre ++ [x]) (fuel + 1) i o = R o1 := by
  have hnext : ∀ (i : Nat) (a : String), pre[i]? = some a → takesValue a = true →
      i + 1 < pre.length := by
    intro i a h1 h2
    have hi : i < pre.length := (List.getElem?_eq_some_iff.mp h1).1
    by_contra hc
    have hl : pre.getLast? = some a := by
      rw [List.getLast?_eq_getElem?]
      have : pre.length - 1 = i := by omega
      rw [this, h1]
    rw [hpre a hl] at h2
    exact Bool.false_ne_true h2
  intro fuel
  induction fuel with
  | zero => intro i o o1 _ h; simp [parseArgsLoop] at h
  | succ fuel ih =>
    intro i o o1 hi h
    rw [parseArgsLoop] at h
    cases hget : pre[i]? with
    | none =>
      have hi2 : pre.length ≤ i := List.getElem?_eq_none_iff.mp hget
      have hi3 : i = pre.length := by omega
      rw [hget] at h
      simp only [Except.ok.injEq] at h
      rw [hi3, ← h]
      exact hfin fuel o
    | some a =>
      have hlt : i < pre.length := (List.getElem?_eq_some_iff.mp hget).1
      rw [hget] at h
      rw [parseArgsLoop, List.getElem?_append_left hlt, hget]
      simp only [] at h ⊢
      split_ifs at h ⊢ with h1 h2 h3 h4 h5 h6
      · have hn := hnext i a hget (by simp [takesValue, h1])
        rw [parseIntArg_append pre x i hn]
        exact ih _ _ _ (by omega) h
      · have hn := hnext i a hget (by simp [takesValue, h2])
        rw [List.getElem?_append_left hn]
        cases hv : pre[i + 1]? with
        | none => rw [hv] at h; simp at h
        | some v => rw [hv] at h; exact ih _ _ _ (by omega) h
      · have hn := hnext i a hget (by simp [takesValue, h3])
        rw [List.getElem?_append_left hn]
        cases hv : pre[i + 1]? with
        | none => rw [hv] at h; simp at h
        | some v => rw [hv] at h; exact ih _ _ _ (by omega) h
      · have hn := hnext i a hget (by simp [takesValue, h4])
        rw [parseUint16Arg_append pre x i hn]
        exact ih _ _ _ (by omega) h
      · exact ih _ _ _ (by omega) h
      · have hn := hnext i a hget (by simp [takesValue, h6])
        rw [List.getElem?_append_left hn]
        cases hv : pre[i + 1]? with
        | none => rw [hv] at h; simp at h
        | some v => rw [hv] at h; exact ih _ _ _ (by omega) h
      · exact ih _ _ _ (by omega) h

theorem parseArgsLoop_trailing_t (pre : List String) (fuel : Nat) (o : Opts) :
    parseArgsLoop (pre ++ ["-t"]) (fuel + 2) pre.length o
      = .ok { o with Threads := 0 } := by
  have h0 : (pre ++ ["-t"])[pre.length]? = some "-t" := by simp
  have h2 : (pre ++ ["-t"])[pre.length + 2]? = none := by simp
  have hp : parseIntArg (pre ++ ["-t"]) pre.length = 0 := by simp [parseIntArg]
  rw [parseArgsLoop, h0]
  simp only [if_true]
  rw [parseArgsLoop, h2, hp]

theorem parseArgsLoop_trailing_p (pre : List String) (fuel : Nat) (o : Opts) :
    parseArgsLoop (pre ++ ["-p"]) (fuel + 2) pre.length o
      = .ok { o with Port := 0 } := by
  have h0 : (pre ++ ["-p"])[pre.length]? = some "-p" := by simp
  have h2 : (pre ++ ["-p"])[pre.length + 2]? = none := by simp
  have hp : parseUint16Arg (pre ++ ["-p"]) pre.length = 0 := by simp [parseUint16Arg]
  rw [parseArgsLoop, h0]
  have e1 : ("-p" : String) ≠ "-t" := by decide
  have e2 : ("-p" : String) ≠ "-r" := by decide
  have e3 : ("-p" : String) ≠ "-P" := by decide
  simp only [e1, e2, e3, if_false, if_true]
  rw [parseArgsLoop, h2, hp]

/-- Claim C10: for every argument list whose last element is none of "-r",
"-P" and "-f", `parseArgs` completes, without an out-of-range index access.
A trailing "-t" (or "-p") with no value is accepted and sets the thread
count (or the port) to 0: whenever the loop arrives at it, with whatever
options `o` parsed so far, the result is `o` with that option set to 0, and
for every list `pre` that does not itself end in a flag taking a value,
parsing `pre` followed by "-t" (or "-p") gives the options parsed from `pre`
with that option set to 0. -/
theorem c10_parseArgs_index_safe :
    (∀ args : List String, args.getLast? ≠ some "-r" → args.getLast? ≠ some "-P" →
      args.getLast? ≠ some "-f" → ∃ o, parseArgs args = .ok o) ∧
    (∀ (pre : List String) (fuel : Nat) (o : Opts),
      parseArgsLoop (pre ++ ["-t"]) (fuel + 2) pre.length o = .ok { o with Threads := 0 } ∧
      parseArgsLoop (pre ++ ["-p"]) (fuel + 2) pre.length o = .ok { o with Port := 0 }) ∧
    (∀ pre : List String, endsInValueFlag pre = false →
      ∃ o, parseArgs pre = .ok o ∧
        parseArgs (pre ++ ["-t"]) = .ok { o with Threads := 0 } ∧
        parseArgs (pre ++ ["-p"]) = .ok { o with Port := 0 }) := by
  refine ⟨fun args hr hP hf => ?_, fun pre fuel o => ?_, fun pre hpre => ?_⟩
  · exact parseArgsLoop_total args hr hP hf (args.length + 1) 0 {} (by omega)
  · exact ⟨parseArgsLoop_trailing_t pre fuel o, parseArgsLoop_trailing_p pre fuel o⟩
  · have hv : ∀ a, pre.getLast? = some a → takesValue a = false := by
      intro a ha
      simpa [endsInValueFlag, ha] using hpre
    obtain ⟨o, ho⟩ := parseArgsLoop_total pre
      (fun h => by have := hv _ h; simp [takesValue] at this)
      (fun h => by have := hv _ h; simp [takesValue] at this)
      (fun h => by have := hv _ h; simp [takesValue] at this)
      (pre.length + 1) 0 {} (by omega)
    refine ⟨o, ho, ?_, ?_⟩
    · have := parseArgsLoop_append pre "-t" (fun o => .ok { o with Threads := 0 }) hv
        (parseArgsLoop_trailing_t pre) (pre.length + 1) 0 {} o (by omega) ho
      simpa [parseArgs] using this
    · have := parseArgsLoop_append pre "-p" (fun o => .ok { o with Port := 0 }) hv
        (parseArgsLoop_trailing_p pre) (pre.length + 1) 0 {} o (by omega) ho
      simpa [parseArgs] using this

/-- Witness for `c10_parseArgs_index_safe`. -/
theorem c10_parseArgs_index_safe_witness :
    (∃ o, parseArgs ["-r", "8.8.8.8", "-d", "-t"] = .ok o) ∧
    (∃ o, parseArgs ["-r", "8.8.8.8", "-d"] = .ok o ∧
      parseArgs (["-r", "8.8.8.8", "-d"] ++ ["-t"]) = .ok { o with Threads := 0 } ∧
      parseArgs (["-r", "8.8.8.8", "-d"] ++ ["-p"]) = .ok { o with Port := 0 }) :=
  ⟨c10_parseArgs_index_safe.1 ["-r", "8.8.8.8", "-d", "-t"]
      (by decide) (by decide) (by decide),
   c10_parseArgs_index_safe.2.2 ["-r", "8.8.8.8", "-d"] (by decide)⟩

end Revtest
